import Mathlib

/-!
Verification of the `worker` package (worker pool) and the `task` package
(batching delete task) of the shortlink repository.

The Go source is embedded shallowly:
* machine integers used as counters are modelled by `Nat` (they only ever
  increase by one from zero, so overflow is unreachable in any claim here);
* `error` values are modelled by an abstract token type `Err := String`;
* channels, goroutines and locks are modelled by sequentialising the critical
  sections they protect: every operation considered here runs under either
  `closedMu`, `errMu` or the batcher's `mu`, so an interleaving of calls is a
  sequence of atomic state transformations;
* Go `panic` is modelled by `Except GoPanic`; a `recover` turns the error
  branch back into a normal result.
-/

namespace Shortlink

/-- Go `error` values, abstractly: only identity matters to the pool. -/
abbrev Err := String

/-- A submitted task, abstractly: only identity matters to the queue. -/
abbrev GoTask := Nat

/-- Ways a Go statement can panic in the modelled code. -/
inductive GoPanic where
  /-- `close` of an already-closed channel. -/
  | doubleClose
  /-- calling a `nil` function value. -/
  | nilFunctionCall
deriving Repr, DecidableEq

/-! ## Worker metrics (`BasicMetrics`) -/

/-- Per-worker counters of `BasicMetrics`: `started`, `completed`, `failed`
(atomic Int64 in Go, incremented only under the worker loop). -/
structure WorkerMetrics where
  started : Nat
  completed : Nat
  failed : Nat
deriving Repr, DecidableEq

/-! ## Pool error buffer (`errSlice` / `errMaximum` under `errMu`) -/

/-- The pool state guarded by `errMu`: the bounded error slice and its
capacity bound `errMaximum`. -/
structure ErrBuf where
  errSlice : List Err
  errMaximum : Nat
deriving Repr, DecidableEq

/-- `IWorkerPool.reportError`: append the error unless the slice already
holds at least `errMaximum` entries, in which case the error is dropped
(after a logged warning). -/
def reportError (p : ErrBuf) (e : Err) : ErrBuf :=
  if p.errMaximum ≤ p.errSlice.length then p
  else { p with errSlice := p.errSlice ++ [e] }

/-- `IWorkerPool.Error`: `errors.Join` over the slice — `none` models the
`nil` result when the slice is empty — then the slice is cleared. -/
def poolError (p : ErrBuf) : Option (List Err) × ErrBuf :=
  (if p.errSlice.isEmpty then none else some p.errSlice,
   { p with errSlice := [] })

/-- Folding `reportError` over a list of reported failures. -/
def reportMany (p : ErrBuf) (es : List Err) : ErrBuf :=
  es.foldl reportError p

/-! ## One task execution inside `IWorker.start` -/

/-- The three ways `task.Execute(ctx)` can end, as observed by the worker
loop: normal return of `nil`, normal return of an error, or a panic
(the recovered value abstracted to a token). -/
inductive ExecOutcome where
  | success
  | failure (e : Err)
  | fault (r : String)
deriving Repr, DecidableEq

/-- The body of the anonymous function wrapping `task.Execute` in
`IWorker.start` (lines 178–208): on a panic the deferred `recover`
increments `failed` and logs, and the statements after the panic point —
including `incrementCompleted` — do not run; on an error return the worker
increments `failed`, reports the error to the pool, then increments
`completed`; on success it just increments `completed`. -/
def execBody (m : WorkerMetrics) (p : ErrBuf) (o : ExecOutcome) :
    WorkerMetrics × ErrBuf :=
  match o with
  | .fault _ => ({ m with failed := m.failed + 1 }, p)
  | .success => ({ m with completed := m.completed + 1 }, p)
  | .failure e =>
      let m := { m with failed := m.failed + 1 }
      let p := reportError p e
      ({ m with completed := m.completed + 1 }, p)

/-- One iteration of the dequeue loop of `IWorker.start` for a dequeued
task: `incrementStarted` before invocation, then the wrapped execution.
The trailing `Bool` is `true` iff the loop proceeds to the next task —
the recover inside the wrapper never re-raises, so it always does. -/
def runTask (m : WorkerMetrics) (p : ErrBuf) (o : ExecOutcome) :
    WorkerMetrics × ErrBuf × Bool :=
  let m := { m with started := m.started + 1 }
  let (m, p) := execBody m p o
  (m, p, true)

/-! ## Pool lifecycle state (`tasks` channel, `isClosed`, `once`) -/

/-- The pool state touched by `Submit`, `Drain` and `Shutdown` under
`closedMu`: the buffered task channel (content plus capacity plus a
closed-mark), the `isClosed` flag, whether the `sync.Once` has fired, how
many times `close(wp.tasks)` actually ran, and the pool metrics counter
`enqueued` (`BasicPoolMetrics`). -/
structure PoolState where
  queue : List GoTask
  bufferSize : Nat
  queueClosed : Bool
  isClosed : Bool
  onceDone : Bool
  closeCount : Nat
  enqueued : Nat
deriving Repr, DecidableEq

/-- The pool state right after `NewWorkerPool` makes `tasks` with capacity
`bufferSize`: empty open queue, flag down, `once` unfired. -/
def freshPool (bufferSize : Nat) : PoolState :=
  { queue := [], bufferSize := bufferSize, queueClosed := false,
    isClosed := false, onceDone := false, closeCount := 0, enqueued := 0 }

/-- Go `close(ch)`: marks the channel closed, or panics if it already is. -/
def closeChan (s : PoolState) : Except GoPanic PoolState :=
  if s.queueClosed then .error .doubleClose
  else .ok { s with queueClosed := true, closeCount := s.closeCount + 1 }

/-- The critical section shared by `Drain` and `Shutdown` (run under
`closedMu.Lock`): `wp.once.Do(func() { close(wp.tasks); wp.isClosed = true })`.
The remainder of both methods only waits on the `WaitGroup` and does not
touch this state. -/
def closeOnce (s : PoolState) : Except GoPanic PoolState :=
  if s.onceDone then .ok s
  else do
    let s ← closeChan s
    .ok { s with isClosed := true, onceDone := true }

/-- A sequence of `n` `Drain`/`Shutdown` close transitions; `closedMu`
serialises them, so concurrency is a sequence of `closeOnce` steps. -/
def closeSeq (s : PoolState) : Nat → Except GoPanic PoolState
  | 0 => .ok s
  | n + 1 => do
    let s' ← closeOnce s
    closeSeq s' n

/-- Result of `IWorkerPool.Submit`: `nil`, `ErrWorkerPoolClosed`,
`ErrWorkerPoolFull`, or the caller context's error. -/
inductive SubmitResult where
  | ok
  | closedErr
  | fullErr
  | ctxErr
deriving Repr, DecidableEq

/-- The successful send case of `Submit`: the task enters the buffered
channel and `incrementEnqueued` runs. -/
def enqueue (s : PoolState) (t : GoTask) : PoolState :=
  { s with queue := s.queue ++ [t], enqueued := s.enqueued + 1 }

/-- `IWorkerPool.Submit` under `closedMu.RLock`. After the `isClosed`
check, the three-way `select` with a `default`: with no consumer running
the send case is ready iff the buffered channel has free capacity, the
context case is ready iff the caller's context is already cancelled
(`ctxCancelled`), and `default` fires only when neither is ready. When
both the send and the context case are ready Go picks one uniformly at
random; `pickSend` records that runtime choice. -/
def Submit (s : PoolState) (t : GoTask) (ctxCancelled pickSend : Bool) :
    SubmitResult × PoolState :=
  if s.isClosed then (.closedErr, s)
  else if s.queue.length < s.bufferSize then
    if ctxCancelled then
      if pickSend then (.ok, enqueue s t) else (.ctxErr, s)
    else (.ok, enqueue s t)
  else if ctxCancelled then (.ctxErr, s)
  else (.fullErr, s)

/-- A sequence of `Submit` calls with live caller contexts. -/
def submitMany (s : PoolState) (ts : List GoTask) :
    List SubmitResult × PoolState :=
  match ts with
  | [] => ([], s)
  | t :: rest =>
      let (r, s') := Submit s t false false
      let (rs, s'') := submitMany s' rest
      (r :: rs, s'')

/-! ## Workers and the pool constructor -/

/-- The per-worker state of `IWorker` relevant here: its fixed `id`, a
token identifying which factory call produced `metricsWorker` (call
counter of `workersMetricsFabric`; distinct tokens = distinct instances),
and whether the `shutdown` cancellation handle has been assigned — it is
`nil` until `start` runs (`w.shutdown = cancel` at loop entry). -/
structure WorkerState where
  id : Nat
  metricsWorker : Nat
  shutdownAssigned : Bool
deriving Repr, DecidableEq

/-- A constructed `IWorkerPool`: worker slice, channel/lifecycle state,
and the bounded error buffer. -/
structure Pool where
  workers : List WorkerState
  state : PoolState
  errBuf : ErrBuf
deriving Repr, DecidableEq

/-- `NewWorkerPool`: panics (modelled as `.error` with the panic message)
on any non-positive `workerCount`, `bufferSize` or `errMaximumAmount` —
before any worker exists or starts; otherwise builds the buffered channel
and `workerCount` workers with ids `1..workerCount`, each from a fresh
`workersMetricsFabric()` call (the i-th call yields token `i`). -/
def NewWorkerPool (workerCount bufferSize errMaximumAmount : Int) :
    Except String Pool :=
  if workerCount ≤ 0 then .error "workerCount must be greater than 0"
  else if bufferSize ≤ 0 then .error "bufferSize must be greater than 0"
  else if errMaximumAmount ≤ 0 then
    .error "errMaximumAmount must be greater than 0"
  else .ok
    { workers := (List.range workerCount.toNat).map fun i =>
        { id := i + 1, metricsWorker := i, shutdownAssigned := false },
      state := freshPool bufferSize.toNat,
      errBuf := { errSlice := [], errMaximum := errMaximumAmount.toNat } }

/-- `IWorker.stop`: calls `w.shutdown()`; if `start` never assigned the
handle the function value is `nil` and the call panics. -/
def stopWorker (w : WorkerState) : Except GoPanic Unit :=
  if w.shutdownAssigned then .ok () else .error .nilFunctionCall

/-- The `for ... workerFromPool.stop()` loop of `Shutdown`; a panic in one
`stop()` propagates out of the loop. -/
def stopAll : List WorkerState → Except GoPanic Unit
  | [] => .ok ()
  | w :: ws =>
      match stopWorker w with
      | .error e => .error e
      | .ok _ => stopAll ws

/-- `IWorkerPool.Shutdown` up to its `WaitGroup` wait: the shared
`closeOnce` transition, then `stop()` on every worker; a panic anywhere
propagates out of `Shutdown`. -/
def Shutdown (p : Pool) : Except GoPanic Pool :=
  match closeOnce p.state with
  | .error e => .error e
  | .ok s =>
      match stopAll p.workers with
      | .error e => .error e
      | .ok _ => .ok { p with state := s }

/-! ## BatcherDeleteTask -/

/-- A Go `map[string][]string`, as an association list with distinct keys
(owner-key to pending sub-ids). `len` of the Go map is the number of keys,
i.e. the list length. -/
abbrev Batch := List (String × List String)

/-- `b.buffer[key]` read: the slice stored at `key`, `nil` (empty) when the
key is absent. -/
def batchGet (m : Batch) (k : String) : List String :=
  match m.find? (fun kv => kv.1 == k) with
  | some kv => kv.2
  | none => []

/-- `m[key] = v` store on the map: overwrite an existing key in place or
add a new one. -/
def batchSet (m : Batch) (k : String) (v : List String) : Batch :=
  if m.any (fun kv => kv.1 == k) then
    m.map fun kv => if kv.1 == k then (k, v) else kv
  else m ++ [(k, v)]

/-- `BatcherDeleteTask.addToBuffer` (under `mu`): for each key of the
incoming map, `buffer[key] = append(buffer[key], value...)` — appending,
never replacing, the sub-ids already buffered for that key. -/
def addToBuffer (buf : Batch) (ids : Batch) : Batch :=
  ids.foldl (fun b kv => batchSet b kv.1 (batchGet b kv.1 ++ kv.2)) buf

/-- The batcher state the claims observe: the pending buffer, the
configured size threshold `bufferSize`, and the arguments of the
`storage.BatchDelete` calls issued so far, in issue order. -/
structure BatcherState where
  buffer : Batch
  bufferSize : Nat
  flushed : List Batch
deriving Repr, DecidableEq

/-- `BatcherDeleteTask.flush` (under `mu`): a no-op on an empty buffer;
otherwise swap the buffer for a fresh empty map and hand the taken content
to an asynchronous `storage.BatchDelete` call. -/
def flush (s : BatcherState) : BatcherState :=
  if s.buffer.length = 0 then s
  else { s with buffer := [], flushed := s.flushed ++ [s.buffer] }

/-- The input-channel arm of the `select` in `BatcherDeleteTask.run` when a
batch `ids` arrives (channel still open): if
`len(b.buffer) + len(ids) >= b.bufferSize` flush first, then
`addToBuffer(ids)`. -/
def recvBatch (s : BatcherState) (ids : Batch) : BatcherState :=
  let s1 := if s.bufferSize ≤ s.buffer.length + ids.length then flush s else s
  { s1 with buffer := addToBuffer s1.buffer ids }

/-- Events the `run` loop can select on; `tick` is the periodic ticker,
`recv` an arriving batch. The context-done and closed-channel arms both
flush and terminate and are covered by `flush` directly. -/
inductive BatchEvent where
  | recv (ids : Batch)
  | tick
deriving Repr, DecidableEq

/-- One `select` iteration of `BatcherDeleteTask.run`. -/
def stepBatcher (s : BatcherState) : BatchEvent → BatcherState
  | .recv ids => recvBatch s ids
  | .tick => flush s

/-- The `run` loop over a sequence of events. -/
def runBatcher (s : BatcherState) (es : List BatchEvent) : BatcherState :=
  es.foldl stepBatcher s

/-- A batcher as produced by `NewBatcherDeleteTask`: empty buffer, no
bulk-delete call issued yet. -/
def freshBatcher (bufferSize : Nat) : BatcherState :=
  { buffer := [], bufferSize := bufferSize, flushed := [] }

/-! ## Worker counter discipline (claims C1, C4) -/

theorem reportError_errMaximum (p : ErrBuf) (e : Err) :
    (reportError p e).errMaximum = p.errMaximum := by
  unfold reportError
  split <;> rfl

theorem reportError_length_le (p : ErrBuf) (e : Err)
    (h : p.errSlice.length ≤ p.errMaximum) :
    (reportError p e).errSlice.length ≤ p.errMaximum := by
  unfold reportError
  split
  · exact h
  · next hlt =>
      simp only [List.length_append, List.length_cons, List.length_nil]
      omega

/-- Claim C1 as stated is false on the code: when `task.Execute` faults,
the panic unwinds the wrapper past `incrementCompleted`, so the deferred
recover increments only `failed` and the completed counter stays
unchanged — here a worker at zeroed counters processes a faulting task and
ends with `completed = 0`, not `1`. -/
theorem runTask_fault_completed_cex :
    (runTask ⟨0, 0, 0⟩ ⟨[], 5⟩ (.fault "boom")).1 =
      { started := 1, completed := 0, failed := 1 } ∧
    ¬ (runTask ⟨0, 0, 0⟩ ⟨[], 5⟩ (.fault "boom")).1.completed = 0 + 1 := by
  exact ⟨rfl, by decide⟩

/-- Claim C1, amended: per dequeued task, `started` is incremented exactly
once before invocation; `completed` is incremented exactly once after
invocation when the task succeeds or returns an error, but not when it
faults; `failed` is incremented exactly once iff the task returned an
error or faulted; and the worker loop always proceeds to the next task,
a fault included. -/
theorem runTask_counter_discipline (m : WorkerMetrics) (p : ErrBuf)
    (o : ExecOutcome) :
    (runTask m p o).1.started = m.started + 1 ∧
    (runTask m p o).1.completed =
      (match o with
       | .fault _ => m.completed
       | _ => m.completed + 1) ∧
    (runTask m p o).1.failed =
      (match o with
       | .success => m.failed
       | _ => m.failed + 1) ∧
    (runTask m p o).2.2 = true := by
  cases o <;> simp [runTask, execBody]

/-- Claim C4 as stated is false on the code: the recover branch of the
execution wrapper only increments `failed` and logs — it never calls
`reportError` — so a recovered fault is not forwarded to the pool's error
buffer and a later `Error()` surfaces nothing: here a fault against an
empty buffer leaves it empty. -/
theorem runTask_fault_buffer_cex :
    (runTask ⟨3, 2, 1⟩ ⟨[], 4⟩ (.fault "oops")).2.1 = ⟨[], 4⟩ ∧
    (poolError (runTask ⟨3, 2, 1⟩ ⟨[], 4⟩ (.fault "oops")).2.1).1 = none := by
  exact ⟨rfl, rfl⟩

/-- Claim C4, amended: an error returned by `Execute` is counted as a
failure and forwarded to the pool's bounded buffer via `reportError`; a
recovered fault is counted as a failure but only logged, never forwarded
to the buffer; and neither is re-raised out of the worker loop. -/
theorem runTask_error_routing (m : WorkerMetrics) (p : ErrBuf)
    (o : ExecOutcome) :
    (∀ e, o = .failure e →
      (runTask m p o).2.1 = reportError p e ∧
      (runTask m p o).1.failed = m.failed + 1) ∧
    (∀ r, o = .fault r →
      (runTask m p o).2.1 = p ∧
      (runTask m p o).1.failed = m.failed + 1) ∧
    (runTask m p o).2.2 = true := by
  refine ⟨?_, ?_, ?_⟩ <;> cases o <;> simp [runTask, execBody]

/-- Witness for `runTask_error_routing` at a concrete failing task. -/
theorem runTask_error_routing_witness :
    (runTask ⟨0, 0, 0⟩ ⟨[], 2⟩ (.failure "e1")).2.1 = reportError ⟨[], 2⟩ "e1" :=
  ((runTask_error_routing ⟨0, 0, 0⟩ ⟨[], 2⟩ (.failure "e1")).1 "e1" rfl).1

/-! ## Error buffer bound and read-and-clear (claim C6) -/

theorem reportMany_bound (es : List Err) (p : ErrBuf)
    (h : p.errSlice.length ≤ p.errMaximum) :
    (reportMany p es).errSlice.length ≤ p.errMaximum := by
  induction es generalizing p with
  | nil => simpa [reportMany] using h
  | cons e rest ih =>
      have h1 := reportError_length_le p e h
      have h2 := reportError_errMaximum p e
      have h3 := ih (reportError p e) (by rw [h2]; exact h1)
      rw [h2] at h3
      simpa [reportMany] using h3

/-- Claim C6: `reportError` preserves the bound `errMaximum` on the buffer
and is a no-op on a full buffer; any number of reports from an empty
buffer stays within the bound, in particular `errMaximum + 5` reports
leave at most `errMaximum` accumulated errors for `Error()` to join; and
`Error()` returns the joined accumulated errors (`none` for `nil` when
there are none) while clearing the buffer, so a second immediate call
returns `none` — read-and-clear, not idempotent. -/
theorem errBuffer_bounded_read_clear :
    (∀ p e, p.errSlice.length ≤ p.errMaximum →
        (reportError p e).errSlice.length ≤ p.errMaximum) ∧
    (∀ p e, p.errMaximum ≤ p.errSlice.length → reportError p e = p) ∧
    (∀ (n : Nat) (es : List Err),
        (reportMany ⟨[], n⟩ es).errSlice.length ≤ n) ∧
    (∀ (n : Nat) (es : List Err), es.length = n + 5 →
        (reportMany ⟨[], n⟩ es).errSlice.length ≤ n) ∧
    (∀ p, poolError p =
        (if p.errSlice.isEmpty then none else some p.errSlice,
         { p with errSlice := [] })) ∧
    (∀ p, (poolError (poolError p).2).1 = none) := by
  refine ⟨reportError_length_le, ?_, ?_, ?_, fun p => rfl, ?_⟩
  · intro p e h
    unfold reportError
    simp [h]
  · intro n es
    exact reportMany_bound es ⟨[], n⟩ (by simp)
  · intro n es _
    exact reportMany_bound es ⟨[], n⟩ (by simp)
  · intro p
    simp [poolError]

/-- Witness for `errBuffer_bounded_read_clear`: seven reported failures
against a buffer bounded at two leave at most two accumulated errors. -/
theorem errBuffer_bounded_read_clear_witness :
    (reportMany ⟨[], 2⟩ ["a", "b", "c", "d", "e", "f", "g"]).errSlice.length ≤ 2 :=
  errBuffer_bounded_read_clear.2.2.2.1 2 ["a", "b", "c", "d", "e", "f", "g"] rfl

/-! ## Close transition and Submit (claims C2, C5, C7) -/

theorem closeOnce_open (s : PoolState) (h1 : s.onceDone = false)
    (h2 : s.queueClosed = false) :
    closeOnce s = .ok { s with queueClosed := true, isClosed := true,
                               onceDone := true,
                               closeCount := s.closeCount + 1 } := by
  unfold closeOnce closeChan
  rw [if_neg (by simp [h1]), if_neg (by simp [h2])]
  rfl

theorem closeOnce_done (s : PoolState) (h : s.onceDone = true) :
    closeOnce s = .ok s := by
  simp [closeOnce, h]

theorem closeSeq_done (n : Nat) (s : PoolState) (h : s.onceDone = true) :
    closeSeq s n = .ok s := by
  induction n with
  | zero => rfl
  | succ k ih =>
      simp only [closeSeq]
      rw [closeOnce_done s h]
      exact ih

/-- Claim C2: from an open pool, any number of serialized `Drain`/`Shutdown`
close transitions succeeds without a double-close panic, the queue is
actually closed exactly once (`closeCount` grows by exactly one), the
closed-flag ends set, and on the resulting state every `Submit` — whatever
the caller context or the select's choice — returns the closed-pool error
and changes nothing. -/
theorem close_once_submit_closed (s : PoolState) (n : Nat)
    (h1 : s.onceDone = false) (h2 : s.queueClosed = false) :
    closeSeq s (n + 1) =
      .ok { s with queueClosed := true, isClosed := true, onceDone := true,
                   closeCount := s.closeCount + 1 } ∧
    (∀ t ctxCancelled pick,
      Submit { s with queueClosed := true, isClosed := true, onceDone := true,
                      closeCount := s.closeCount + 1 } t ctxCancelled pick =
        (.closedErr,
         { s with queueClosed := true, isClosed := true, onceDone := true,
                  closeCount := s.closeCount + 1 })) := by
  constructor
  · simp only [closeSeq]
    rw [closeOnce_open s h1 h2]
    exact closeSeq_done n
      { s with queueClosed := true, isClosed := true, onceDone := true,
               closeCount := s.closeCount + 1 } rfl
  · intro t ctxCancelled pick
    simp [Submit]

/-- Witness for `close_once_submit_closed`: two close requests against a
fresh two-slot pool close the queue once and set the flag. -/
theorem close_once_submit_closed_witness :
    closeSeq (freshPool 2) 2 =
      .ok { freshPool 2 with queueClosed := true, isClosed := true,
                             onceDone := true, closeCount := 1 } :=
  (close_once_submit_closed (freshPool 2) 1 rfl rfl).1

/-- Claim C5 as stated is false on the code: `Submit`'s `select` has the
send case and the context-done case simultaneously ready when the queue
has free space and the caller's context is already cancelled, and Go then
picks one pseudo-randomly — here the runtime picks the send case, so a
`Submit` with a cancelled context enqueues the task, increments `enqueued`
and returns `nil` instead of the context error. -/
theorem submit_cancelled_cex :
    Submit (freshPool 1) 7 true true = (.ok, enqueue (freshPool 1) 7) ∧
    (Submit (freshPool 1) 7 true true).2.enqueued = 1 ∧
    ¬ (Submit (freshPool 1) 7 true true).1 = SubmitResult.ctxErr := by
  exact ⟨rfl, rfl, by decide⟩

/-- Claim C5, amended: on an open pool with an already-cancelled caller
context, `Submit` returns the context error and leaves the pool state
(queue and enqueued counter) unchanged whenever the queue is saturated or
the select resolves to the context case; when the queue has free space,
the select's pseudo-random choice may instead enqueue the task and return
success. -/
theorem submit_cancelled_ctx (s : PoolState) (t : GoTask) (pick : Bool)
    (hopen : s.isClosed = false)
    (h : s.bufferSize ≤ s.queue.length ∨ pick = false) :
    Submit s t true pick = (.ctxErr, s) := by
  by_cases hq : s.queue.length < s.bufferSize
  · have hp : pick = false := by
      rcases h with h | h
      · omega
      · exact h
    simp [Submit, hopen, hq, hp]
  · simp [Submit, hopen, hq]

/-- Witness for `submit_cancelled_ctx`: a cancelled submit against a full
one-slot queue returns the context error and drops the task. -/
theorem submit_cancelled_ctx_witness :
    Submit ⟨[5], 1, false, false, false, 0, 1⟩ 9 true true =
      (.ctxErr, ⟨[5], 1, false, false, false, 0, 1⟩) :=
  submit_cancelled_ctx ⟨[5], 1, false, false, false, 0, 1⟩ 9 true rfl
    (Or.inl (by decide))

theorem submitMany_ok (ts : List GoTask) (s : PoolState)
    (hopen : s.isClosed = false)
    (hcap : s.queue.length + ts.length ≤ s.bufferSize) :
    (submitMany s ts).1 = List.replicate ts.length .ok ∧
    (submitMany s ts).2.queue = s.queue ++ ts ∧
    (submitMany s ts).2.enqueued = s.enqueued + ts.length ∧
    (submitMany s ts).2.bufferSize = s.bufferSize ∧
    (submitMany s ts).2.isClosed = false := by
  induction ts generalizing s with
  | nil => simpa [submitMany] using hopen
  | cons t rest ih =>
      have hlt : s.queue.length < s.bufferSize := by
        simp only [List.length_cons] at hcap
        omega
      have hsub : Submit s t false false = (.ok, enqueue s t) := by
        simp [Submit, hopen, hlt]
      have hcap2 : (enqueue s t).queue.length + rest.length ≤
          (enqueue s t).bufferSize := by
        simp only [List.length_cons] at hcap
        simp only [enqueue, List.length_append, List.length_cons,
          List.length_nil]
        omega
      obtain ⟨ha, hb, hc, hd, he⟩ := ih (enqueue s t) hopen hcap2
      refine ⟨?_, ?_, ?_, ?_, ?_⟩ <;> simp only [submitMany, hsub]
      · simp [ha, List.replicate_succ]
      · rw [hb]
        simp [enqueue]
      · rw [hc]
        simp only [enqueue, List.length_cons]
        omega
      · exact hd.trans rfl
      · exact he

/-- Claim C7: on a freshly constructed, never-started pool of capacity
`B`, every submission while the queue has free space succeeds and
increments `enqueued` by exactly one; submitting `B` tasks therefore
yields `B` successes with `enqueued = B`, and the `(B+1)`-th non-blocking
submission returns the queue-full error immediately, changing nothing. -/
theorem submit_fill_then_full (B : Nat) (ts : List GoTask) (t : GoTask)
    (pick pick2 : Bool) (hlen : ts.length = B) :
    (∀ (s : PoolState) (u : GoTask), s.isClosed = false →
        s.queue.length < s.bufferSize →
        Submit s u false pick2 = (.ok, enqueue s u) ∧
        (enqueue s u).enqueued = s.enqueued + 1) ∧
    (submitMany (freshPool B) ts).1 = List.replicate B .ok ∧
    (submitMany (freshPool B) ts).2.enqueued = B ∧
    Submit (submitMany (freshPool B) ts).2 t false pick =
      (.fullErr, (submitMany (freshPool B) ts).2) := by
  obtain ⟨h1, hq, he, hb, hc⟩ :=
    submitMany_ok ts (freshPool B) rfl (by simp [freshPool, hlen])
  rw [hlen] at h1
  have he2 : (submitMany (freshPool B) ts).2.enqueued = B := by
    rw [he]
    simp [freshPool, hlen]
  refine ⟨?_, h1, he2, ?_⟩
  · intro s u hsopen hslt
    exact ⟨by simp [Submit, hsopen, hslt], rfl⟩
  · have hqlen : (submitMany (freshPool B) ts).2.queue.length = B := by
      rw [hq]
      simp [freshPool, hlen]
    have hbeq : (submitMany (freshPool B) ts).2.bufferSize = B :=
      hb.trans rfl
    simp [Submit, hc, hqlen, hbeq]

/-- Witness for `submit_fill_then_full`: two submissions fill a fresh
two-slot pool and the third is rejected as full. -/
theorem submit_fill_then_full_witness :
    Submit (submitMany (freshPool 2) [10, 20]).2 30 false false =
      (.fullErr, (submitMany (freshPool 2) [10, 20]).2) :=
  (submit_fill_then_full 2 [10, 20] 30 false false rfl).2.2.2

/-! ## Construction and Shutdown-before-Start (claims C9, C10) -/

/-- Claim C9: every strictly positive parameter triple yields a pool of
exactly `workerCount` workers with sequential ids starting at 1, each
holding the metrics instance of its own factory call (all instances
distinct), a fresh queue of capacity `bufferSize` and an empty error
buffer bounded by `errMaximumAmount`; any non-positive parameter makes
construction panic before any worker exists or starts. -/
theorem newWorkerPool_validation (workerCount bufferSize errMaximumAmount : Int) :
    (0 < workerCount → 0 < bufferSize → 0 < errMaximumAmount →
      ∃ p, NewWorkerPool workerCount bufferSize errMaximumAmount = .ok p ∧
        p.workers.length = workerCount.toNat ∧
        p.workers.map (fun w => w.id) =
          (List.range workerCount.toNat).map (fun i => i + 1) ∧
        (p.workers.map (fun w => w.metricsWorker)).Nodup ∧
        p.state = freshPool bufferSize.toNat ∧
        p.errBuf = ⟨[], errMaximumAmount.toNat⟩) ∧
    ((workerCount ≤ 0 ∨ bufferSize ≤ 0 ∨ errMaximumAmount ≤ 0) →
      ∃ msg, NewWorkerPool workerCount bufferSize errMaximumAmount =
        .error msg) := by
  constructor
  · intro h1 h2 h3
    refine ⟨{ workers := (List.range workerCount.toNat).map (fun i =>
                { id := i + 1, metricsWorker := i, shutdownAssigned := false }),
              state := freshPool bufferSize.toNat,
              errBuf := { errSlice := [],
                          errMaximum := errMaximumAmount.toNat } },
      ?_, ?_, ?_, ?_, rfl, rfl⟩
    · unfold NewWorkerPool
      rw [if_neg (by omega), if_neg (by omega), if_neg (by omega)]
    · simp
    · simp [List.map_map, Function.comp]
    · simp [List.map_map, Function.comp_def, List.nodup_range]
  · intro h
    unfold NewWorkerPool
    split
    · exact ⟨_, rfl⟩
    · split
      · exact ⟨_, rfl⟩
      · split
        · exact ⟨_, rfl⟩
        · next hw hb he2 =>
            rcases h with h | h | h <;> omega

/-- Witness for `newWorkerPool_validation`: parameters 2/3/4 construct a
pool, and a zero worker count is rejected. -/
theorem newWorkerPool_validation_witness :
    (∃ p, NewWorkerPool 2 3 4 = .ok p ∧
        p.workers.length = (2 : Int).toNat ∧
        p.workers.map (fun w => w.id) =
          (List.range (2 : Int).toNat).map (fun i => i + 1) ∧
        (p.workers.map (fun w => w.metricsWorker)).Nodup ∧
        p.state = freshPool (3 : Int).toNat ∧
        p.errBuf = ⟨[], (4 : Int).toNat⟩) ∧
    (∃ msg, NewWorkerPool 0 3 4 = .error msg) :=
  ⟨(newWorkerPool_validation 2 3 4).1 (by decide) (by decide) (by decide),
   (newWorkerPool_validation 0 3 4).2 (Or.inl (by decide))⟩

theorem stopAll_ok (ws : List WorkerState)
    (h : ∀ w ∈ ws, w.shutdownAssigned = true) :
    stopAll ws = .ok () := by
  induction ws with
  | nil => rfl
  | cons w rest ih =>
      have hw : stopWorker w = .ok () := by
        simp [stopWorker, h w (by simp)]
      simp only [stopAll]
      rw [hw]
      exact ih fun x hx => h x (by simp [hx])

theorem stopAll_first_nil (w : WorkerState) (ws : List WorkerState)
    (h : w.shutdownAssigned = false) :
    stopAll (w :: ws) = .error .nilFunctionCall := by
  have hw : stopWorker w = .error .nilFunctionCall := by
    simp [stopWorker, h]
  simp only [stopAll]
  rw [hw]

/-- Claim C10: on any pool as constructed — `Start` never invoked, so no
worker's `shutdown` cancellation handle was ever assigned — `Shutdown`
faults with a nil-function-call panic, because its per-worker `stop()`
loop invokes the first worker's `nil` handle; whereas once every worker
has run far enough through `start` to assign its handle, the same
`Shutdown` on an open pool succeeds. -/
theorem shutdown_before_start_faults (wc bs em : Int) (p : Pool)
    (h : NewWorkerPool wc bs em = .ok p) :
    Shutdown p = .error .nilFunctionCall ∧
    (∀ q : Pool, (∀ w ∈ q.workers, w.shutdownAssigned = true) →
      q.state.onceDone = false → q.state.queueClosed = false →
      Shutdown q = .ok { q with state :=
        { q.state with queueClosed := true, isClosed := true,
                       onceDone := true,
                       closeCount := q.state.closeCount + 1 } }) := by
  constructor
  · unfold NewWorkerPool at h
    split at h
    · simp at h
    · split at h
      · simp at h
      · split at h
        · simp at h
        · next hw hb he2 =>
            cases h
            have hn : wc.toNat = (wc.toNat - 1) + 1 := by omega
            unfold Shutdown
            rw [closeOnce_open _ rfl rfl]
            rw [hn, List.range_succ_eq_map, List.map_cons]
            rw [stopAll_first_nil _ _ rfl]
  · intro q hq h1 h2
    unfold Shutdown
    rw [closeOnce_open _ h1 h2, stopAll_ok _ hq]

/-- Witness for `shutdown_before_start_faults`: `Shutdown` on the
constructed-but-never-started 2/3/4 pool panics on a nil handle. -/
theorem shutdown_before_start_faults_witness :
    Shutdown
      { workers := [⟨1, 0, false⟩, ⟨2, 1, false⟩],
        state := freshPool 3,
        errBuf := ⟨[], 4⟩ } = .error .nilFunctionCall :=
  (shutdown_before_start_faults 2 3 4
    { workers := [⟨1, 0, false⟩, ⟨2, 1, false⟩],
      state := freshPool 3,
      errBuf := ⟨[], 4⟩ } (by rfl)).1

/-! ## Batcher merge and flush (claims C3, C8) -/

/-- Claim C3 as stated is false on the code: with two buffered owner-keys,
a threshold of three and one arriving key, the size check
`len(buffer) + len(ids) >= bufferSize` fires, but `run` calls `flush`
BEFORE `addToBuffer`, so the immediately flushed content is only the old
buffer — the new batch (key `w`) is absent from every flushed batch and
instead seeds the next buffer. -/
theorem recvBatch_excludes_new_cex :
    recvBatch ⟨[("u", ["a"]), ("v", ["b"])], 3, []⟩ [("w", ["c"])] =
      ⟨[("w", ["c"])], 3, [[("u", ["a"]), ("v", ["b"])]]⟩ ∧
    ∀ b ∈ (recvBatch ⟨[("u", ["a"]), ("v", ["b"])], 3, []⟩
        [("w", ["c"])]).flushed, batchGet b "w" = [] := by
  exact ⟨rfl, by decide⟩

/-- Claim C3, amended: when a batch arrives and the buffered key count
plus the incoming key count reaches or exceeds the threshold, the current
buffer content — excluding the new batch — is flushed immediately without
waiting for the timer (a no-op when that buffer is empty), and the new
batch is then merged, by per-key append, into the now-empty buffer. -/
theorem recvBatch_threshold (s : BatcherState) (ids : Batch)
    (h : s.bufferSize ≤ s.buffer.length + ids.length) :
    (recvBatch s ids).buffer = addToBuffer [] ids ∧
    (recvBatch s ids).flushed =
      (if s.buffer.length = 0 then s.flushed else s.flushed ++ [s.buffer]) ∧
    (recvBatch s ids).bufferSize = s.bufferSize := by
  have hs1 : (if s.bufferSize ≤ s.buffer.length + ids.length then flush s
      else s) = flush s := if_pos h
  simp only [recvBatch, hs1]
  unfold flush
  by_cases hb : s.buffer.length = 0
  · have hnil : s.buffer = [] := List.length_eq_zero.mp hb
    simp [hb, hnil]
  · simp [hb]

/-- Witness for `recvBatch_threshold`: one buffered key plus one incoming
key meets a threshold of two, so the old singleton buffer is flushed and
the new batch becomes the whole new buffer. -/
theorem recvBatch_threshold_witness :
    (recvBatch ⟨[("u", ["a"])], 2, []⟩ [("v", ["b"])]).buffer =
      addToBuffer [] [("v", ["b"])] :=
  (recvBatch_threshold ⟨[("u", ["a"])], 2, []⟩ [("v", ["b"])] (by decide)).1

/-- Claim C8: below the threshold, the batches `user1 ↦ [a, b]` then
`user1 ↦ [c]` merge by appending under the same owner-key, and the next
timer tick issues exactly one bulk-delete call whose argument is
`user1 ↦ [a, b, c]`, leaving an empty buffer; flushing an empty buffer
issues no bulk-delete call at all. -/
theorem batcher_merge_then_timer_flush :
    runBatcher (freshBatcher 3)
        [.recv [("user1", ["a", "b"])], .recv [("user1", ["c"])], .tick] =
      { buffer := [], bufferSize := 3,
        flushed := [[("user1", ["a", "b", "c"])]] } ∧
    (∀ (n : Nat) (F : List Batch),
      flush { buffer := [], bufferSize := n, flushed := F } =
        { buffer := [], bufferSize := n, flushed := F }) := by
  exact ⟨rfl, fun n F => rfl⟩

end Shortlink
